import Mathlib

/-!
Verification development for the rusty-picopd firmware core (AP33772 USB-PD
sink controller).  The definitions below are a shallow embedding of the Rust
sources: the register codec and driver operations from src/ap33772/regs.rs and
src/ap33772/mod.rs, and the profile selector and control loop from src/main.rs.
Machine integers are modelled as Nat with explicit truncation where the source
truncates; fallible bus transactions are modelled with Option results.
-/

/-- Bits hi..lo of the word w, as generated by the bitfield crate range
getters: shift right by lo, keep the low hi-lo+1 bits. -/
def getBits (w hi lo : Nat) : Nat := w / 2 ^ lo % 2 ^ (hi - lo + 1)

/-- Setting bits hi..lo of the word w to the low bits of v, as generated by
the bitfield crate range setters: the field is cleared and replaced by v
truncated to the field width; bits outside the range are preserved. -/
def setBits (w hi lo v : Nat) : Nat :=
  w % 2 ^ lo + v % 2 ^ (hi - lo + 1) * 2 ^ lo + w / 2 ^ (hi + 1) * 2 ^ (hi + 1)

/-- Status register bitfield, from regs.rs. -/
structure Status where
  reg : Nat
deriving DecidableEq

def Status.derating (s : Status) : Bool := s.reg.testBit 7

def Status.otp (s : Status) : Bool := s.reg.testBit 6

def Status.ocp (s : Status) : Bool := s.reg.testBit 5

def Status.ovp (s : Status) : Bool := s.reg.testBit 4

def Status.newpdos (s : Status) : Bool := s.reg.testBit 2

def Status.success (s : Status) : Bool := s.reg.testBit 1

def Status.ready (s : Status) : Bool := s.reg.testBit 0

/-- Fixed PDO word, from regs.rs. -/
structure FixedPDO where
  reg : Nat
deriving DecidableEq

/-- Field v, bits 19..10, LSB 50 mV. -/
def FixedPDO.v (p : FixedPDO) : Nat := getBits p.reg 19 10

/-- Field imax, bits 9..0, LSB 10 mA. -/
def FixedPDO.imax (p : FixedPDO) : Nat := getBits p.reg 9 0

/-- Programmable (PPS) PDO word, from regs.rs. -/
structure APDO where
  reg : Nat
deriving DecidableEq

/-- Field vmax, bits 24..17, LSB 100 mV. -/
def APDO.vmax (p : APDO) : Nat := getBits p.reg 24 17

/-- Field vmin, bits 15..8, LSB 100 mV. -/
def APDO.vmin (p : APDO) : Nat := getBits p.reg 15 8

/-- Field imax, bits 6..0, LSB 50 mA. -/
def APDO.imax (p : APDO) : Nat := getBits p.reg 6 0

/-- Decoded PDO, from regs.rs. -/
inductive PDO where
  | Fixed (p : FixedPDO)
  | Programmable (p : APDO)
deriving DecidableEq

def PDO.vmin : PDO → Nat
  | .Fixed pdo => pdo.v * 50
  | .Programmable pdo => pdo.vmin * 100

def PDO.vmax : PDO → Nat
  | .Fixed pdo => pdo.v * 50
  | .Programmable pdo => pdo.vmax * 100

def PDO.imax : PDO → Nat
  | .Fixed pdo => pdo.imax * 10
  | .Programmable pdo => pdo.imax * 50

def PDO.vcomp (p : PDO) (vmin vmax : Nat) : Bool :=
  decide (vmin ≤ p.vmax) && decide (p.vmin ≤ vmax)

def PDO.icomp (p : PDO) (imin : Nat) : Bool :=
  decide (imin ≤ p.imax)

/-- Classification of one 32-bit PDO slot word, from the body of
AP33772::read_pdos in mod.rs. -/
def decodePDO (w : Nat) : Option PDO :=
  if w = 0 then none
  else if w &&& 0xf0000000 = 0xc0000000 then some (.Programmable ⟨w⟩)
  else if w &&& 0xc0000000 = 0 then some (.Fixed ⟨w⟩)
  else none

/-- Little-endian 32-bit word at slot i of the 28-byte PDO block buffer,
from u32::from_le_bytes on buf[4i..4i+4] in read_pdos. -/
def wordAt (buf : List Nat) (i : Nat) : Nat :=
  buf.getD (4 * i) 0 + 256 * buf.getD (4 * i + 1) 0 +
    65536 * buf.getD (4 * i + 2) 0 + 16777216 * buf.getD (4 * i + 3) 0

/-- Decode of the full 28-byte PDO block into the 7-slot table, from the
loop body of AP33772::read_pdos. -/
def decodeBlock (buf : List Nat) : List (Option PDO) :=
  (List.range 7).map (fun i => decodePDO (wordAt buf i))

/-- Retained driver state of the AP33772 struct in mod.rs: the stored status
register copy and the decoded PDO table. -/
structure AP33772State where
  status : Nat
  pdos : List (Option PDO)
deriving DecidableEq

/-- Effect of AP33772::read_pdos on the driver state, given the 28 bytes
returned by the bus transaction. -/
def read_pdos (st : AP33772State) (buf : List Nat) : AP33772State :=
  { st with pdos := decodeBlock buf }

/-- Results of the bus transactions one call to AP33772::update may issue:
the 1-byte status register read and the 28-byte PDO block read.  A none
result models a transport error. -/
structure BusReads where
  statusRead : Option Nat
  pdoRead : Option (List Nat)
deriving DecidableEq

/-- AP33772::update from mod.rs: read the status register into the stored
status; if ready and newpdos are both set, re-read and re-decode the PDO
block; return the freshly read status.  A none outcome models the Rust Err
path (the new state still records any mutation made before the failure). -/
def update (st : AP33772State) (bus : BusReads) : AP33772State × Option Nat :=
  match bus.statusRead with
  | none => (st, none)
  | some b =>
    let st := { st with status := b }
    if Status.ready ⟨b⟩ && Status.newpdos ⟨b⟩ then
      match bus.pdoRead with
      | none => (st, none)
      | some buf => (read_pdos st buf, some b)
    else (st, some b)

/-- AP33772::write_ocpthr from mod.rs: the threshold is divided by 50 and
converted to one byte; the unwrap on the conversion models as none (a Rust
panic) when the quotient does not fit, otherwise the 2-byte bus write to
register 0x23 is issued. -/
def write_ocpthr (thr : Nat) : Option (List Nat) :=
  if thr / 50 < 256 then some [0x23, thr / 50] else none

/-- Caller-supplied target constraints, the local constants of main.rs. -/
structure Target where
  v_nom : Nat
  v_min : Nat
  v_max : Nat
  i_nom : Nat
  i_min : Nat
deriving DecidableEq

/-- The target constraints hard-coded in main.rs. -/
def mainTarget : Target := ⟨3400, 3300, 5000, 1000, 1000⟩

/-- One iteration of the profile-selection loop in main.rs, lines 62..106:
given the running best selection and the current slot, return the new
running best.  The match arms mirror the Rust match on (pdo, pdo_sel)
including its bindings: in the two same-variant arms pdo_old binds the inner
FixedPDO or APDO (Rust match ergonomics), so pdo_old.imax there is the raw
unscaled bitfield getter, while pdo.imax on the candidate is the scaled
PDO-level current. -/
def selStep (t : Target) (sel : Option (Nat × PDO)) (i : Nat)
    (pdoOpt : Option PDO) : Option (Nat × PDO) :=
  match pdoOpt with
  | none => sel
  | some pdo =>
    if pdo.vcomp t.v_min t.v_max && pdo.icomp t.i_min then
      match pdo, sel with
      | _, none => some (i, pdo)
      | .Programmable _, some (_, .Fixed _) => some (i, pdo)
      | .Fixed _, some (_, .Fixed pdo_old) =>
        if pdo.imax > pdo_old.imax then some (i, pdo) else sel
      | .Programmable _, some (_, .Programmable pdo_old) =>
        if pdo.imax > pdo_old.imax then some (i, pdo) else sel
      | _, _ => sel
    else sel

/-- The enumerated scan of the profile-selection loop, slot index ascending. -/
def selectAux (t : Target) : Nat → Option (Nat × PDO) → List (Option PDO) →
    Option (Nat × PDO)
  | _, sel, [] => sel
  | i, sel, p :: rest => selectAux t (i + 1) (selStep t sel i p) rest

/-- The profile selector of main.rs: scan the 7 slots in ascending position
order, starting from no selection. -/
def select (t : Target) (pdos : List (Option PDO)) : Option (Nat × PDO) :=
  selectAux t 0 none pdos

/-- Construction of the fixed RDO word from main.rs, lines 120..127:
position ipdo+1 into bits 30..28, the requested current (min of the target
nominal and the offered maximum, in mA) divided by 10 into bits 19..10 and
bits 9..0. -/
def buildFixedRDO (t : Target) (ipdo : Nat) (pdo : FixedPDO) : Nat :=
  let frdo := setBits 0 30 28 (ipdo + 1)
  let i_set := min t.i_nom (pdo.imax * 10)
  let frdo := setBits frdo 19 10 (i_set / 10)
  setBits frdo 9 0 (i_set / 10)

/-- Construction of the programmable RDO word from main.rs, lines 110..118:
position ipdo+1 into bits 30..28, the clamped target voltage divided by 20
into bits 19..9, the requested current divided by 50 into bits 6..0. -/
def buildARDO (t : Target) (ipdo : Nat) (pdo : APDO) : Nat :=
  let ardo := setBits 0 30 28 (ipdo + 1)
  let v_set := max (min t.v_nom t.v_max) t.v_min
  let i_set := min t.i_nom (pdo.imax * 50)
  let ardo := setBits ardo 19 9 (v_set / 20)
  setBits ardo 6 0 (i_set / 50)

/-- The request phase of main.rs, lines 109..130: build and write an RDO for
the selected slot, or do nothing when no slot was selected.  The result is
the RDO word written to the device, if any. -/
def requestRDO (t : Target) (sel : Option (Nat × PDO)) : Option Nat :=
  match sel with
  | some (ipdo, .Programmable pdo) => some (buildARDO t ipdo pdo)
  | some (ipdo, .Fixed pdo) => some (buildFixedRDO t ipdo pdo)
  | none => none

/-- Externally visible effects of one control-loop cycle: writes to the
power-enable pin and RDO writes to the device. -/
inductive CtrlAction where
  | setOutput (high : Bool)
  | writeRDO (w : Nat)
deriving DecidableEq

/-- State retained by the control loop across cycles: the first-update flag,
the driver state, and the level of the power-enable output pin. -/
structure CtrlState where
  init : Bool
  dev : AP33772State
  pwrEn : Bool
deriving DecidableEq

/-- Bus transaction results consumed by one control-loop cycle: the status
read and PDO block read of update, and the PDO block read of the extra
read_pdos call made on the first cycle. -/
structure CtrlInput where
  statusRead : Option Nat
  pdoReadU : Option (List Nat)
  pdoReadI : Option (List Nat)
deriving DecidableEq

/-- One iteration of control_fut in main.rs, lines 135..172: call update; on
a transport error do nothing further this cycle; otherwise re-read the PDO
table on the first cycle, clear the first-update flag when this is the first
cycle or newpdos is set (the profile re-selection at that point is left as a
TODO in the source and performs no action), then gate the power-enable
output: any fault bit forces it low and skips the rest of the cycle, else
ready and success together drive it high. -/
def ctrlStep (st : CtrlState) (inp : CtrlInput) : CtrlState × List CtrlAction :=
  match update st.dev ⟨inp.statusRead, inp.pdoReadU⟩ with
  | (dev, none) => ({ st with dev := dev }, [])
  | (dev, some b) =>
    let status : Status := ⟨b⟩
    let dev :=
      if st.init then
        match inp.pdoReadI with
        | some buf => read_pdos dev buf
        | none => dev
      else dev
    let init := if st.init || status.newpdos then false else st.init
    if status.ovp || status.ocp || status.otp then
      ({ init := init, dev := dev, pwrEn := false }, [.setOutput false])
    else if status.ready && status.success then
      ({ init := init, dev := dev, pwrEn := true }, [.setOutput true])
    else
      ({ init := init, dev := dev, pwrEn := st.pwrEn }, [])

/-- A 28-byte PDO block offering a single fixed 5 V, 3 A profile in slot 1,
used as concrete evidence input. -/
def fixedBlock : List Nat := [0x2c, 0x91, 0x01, 0x00] ++ List.replicate 24 0

lemma update_error_pdos (st : AP33772State) (bus : BusReads)
    (h : (update st bus).2 = none) : (update st bus).1.pdos = st.pdos := by
  unfold update at h ⊢
  cases hs : bus.statusRead with
  | none => simp [hs]
  | some b =>
    simp only [hs] at h ⊢
    by_cases hb : (Status.ready ⟨b⟩ && Status.newpdos ⟨b⟩) = true
    · simp only [hb, if_true] at h ⊢
      cases hp : bus.pdoRead with
      | none => simp [hp]
      | some buf => simp [hp] at h
    · simp only [Bool.not_eq_true] at hb
      simp [hb] at h

/-- Claim C1: whenever a status update processed by the control loop has any
of the ovp, ocp or otp bits set, the cycle ends with the power-enable output
deasserted and the only pin action of the cycle is the deassertion, even if
ready and success are also set. -/
theorem c1_fault_overrides_output (st : CtrlState) (inp : CtrlInput) (b : Nat)
    (h : (update st.dev ⟨inp.statusRead, inp.pdoReadU⟩).2 = some b)
    (hf : (Status.ovp ⟨b⟩ || Status.ocp ⟨b⟩ || Status.otp ⟨b⟩) = true) :
    (ctrlStep st inp).1.pwrEn = false ∧
    (ctrlStep st inp).2 = [.setOutput false] := by
  rcases hu : update st.dev ⟨inp.statusRead, inp.pdoReadU⟩ with ⟨dev, res⟩
  rw [hu] at h
  obtain rfl : res = some b := h
  simp [ctrlStep, hu, hf]

theorem c1_witness :
    (update ⟨0, List.replicate 7 none⟩ ⟨some 19, none⟩).2 = some 19 ∧
    (Status.ovp ⟨19⟩ || Status.ocp ⟨19⟩ || Status.otp ⟨19⟩) = true ∧
    (Status.ready ⟨19⟩ && Status.success ⟨19⟩) = true ∧
    (ctrlStep ⟨false, ⟨0, List.replicate 7 none⟩, false⟩ ⟨some 19, none, none⟩).1.pwrEn
      = false ∧
    (ctrlStep ⟨false, ⟨0, List.replicate 7 none⟩, false⟩ ⟨some 19, none, none⟩).2
      = [.setOutput false] := by
  have h := c1_fault_overrides_output ⟨false, ⟨0, List.replicate 7 none⟩, false⟩
    ⟨some 19, none, none⟩ 19 (by decide) (by decide)
  exact ⟨by decide, by decide, by decide, h.1, h.2⟩

/-- Claim C5: update reads the status register and, exactly when both ready
and newpdos are set in the freshly read byte, re-decodes the 28-byte PDO
block into the table; on success it returns the freshly read status, and
when ready or newpdos is clear the stored PDO table is unchanged. -/
theorem c5_update_refresh (st : AP33772State) (b : Nat)
    (pdoRead : Option (List Nat)) :
    ((Status.ready ⟨b⟩ && Status.newpdos ⟨b⟩) = true →
      ∀ buf, update st ⟨some b, some buf⟩ = (⟨b, decodeBlock buf⟩, some b)) ∧
    ((Status.ready ⟨b⟩ && Status.newpdos ⟨b⟩) = false →
      update st ⟨some b, pdoRead⟩ = ({ st with status := b }, some b)) := by
  constructor
  · intro hb buf
    simp [update, hb, read_pdos]
  · intro hb
    simp [update, hb]

theorem c5_witness :
    (Status.ready ⟨5⟩ && Status.newpdos ⟨5⟩) = true ∧
    update ⟨0, List.replicate 7 none⟩ ⟨some 5, some fixedBlock⟩ =
      (⟨5, decodeBlock fixedBlock⟩, some 5) ∧
    (Status.ready ⟨1⟩ && Status.newpdos ⟨1⟩) = false ∧
    update ⟨0, List.replicate 7 none⟩ ⟨some 1, none⟩ =
      (⟨1, List.replicate 7 none⟩, some 1) := by
  refine ⟨by decide, (c5_update_refresh ⟨0, List.replicate 7 none⟩ 5 none).1
    (by decide) fixedBlock, by decide, ?_⟩
  exact (c5_update_refresh ⟨0, List.replicate 7 none⟩ 1 none).2 (by decide)

/-- Claim C8 (amended): when the status update of a control cycle returns a
transport error, the PDO table, the first-update flag and the power-enable
output are unchanged and the cycle performs no action, so the loop just
proceeds to the next iteration; the stored status register copy alone may
change, namely when the status read succeeded and the subsequent PDO block
re-read failed. -/
theorem c8_transport_error_frame (st : CtrlState) (inp : CtrlInput)
    (h : (update st.dev ⟨inp.statusRead, inp.pdoReadU⟩).2 = none) :
    (ctrlStep st inp).1.dev.pdos = st.dev.pdos ∧
    (ctrlStep st inp).1.init = st.init ∧
    (ctrlStep st inp).1.pwrEn = st.pwrEn ∧
    (ctrlStep st inp).2 = [] := by
  rcases hu : update st.dev ⟨inp.statusRead, inp.pdoReadU⟩ with ⟨dev, res⟩
  rw [hu] at h
  obtain rfl : res = none := h
  have hp := update_error_pdos st.dev ⟨inp.statusRead, inp.pdoReadU⟩ (by rw [hu])
  rw [hu] at hp
  have hp2 : dev.pdos = st.dev.pdos := hp
  simp [ctrlStep, hu, hp2]

theorem c8_witness :
    (update ⟨7, List.replicate 7 none⟩ ⟨none, none⟩).2 = none ∧
    (ctrlStep ⟨true, ⟨7, List.replicate 7 none⟩, true⟩ ⟨none, none, none⟩).1.dev.pdos
      = List.replicate 7 none ∧
    (ctrlStep ⟨true, ⟨7, List.replicate 7 none⟩, true⟩ ⟨none, none, none⟩).1.pwrEn
      = true ∧
    (ctrlStep ⟨true, ⟨7, List.replicate 7 none⟩, true⟩ ⟨none, none, none⟩).2 = [] := by
  have h := c8_transport_error_frame ⟨true, ⟨7, List.replicate 7 none⟩, true⟩
    ⟨none, none, none⟩ (by decide)
  exact ⟨by decide, h.1, h.2.2.1, h.2.2.2⟩

/-- Claim C8 counterexample: a cycle whose status read succeeds with ready
and newpdos set but whose PDO block re-read fails returns a transport error,
yet the stored status register copy has changed from 0 to 5 during that
cycle, so not all retained state is left unchanged. -/
theorem c8_counterexample :
    (update ⟨0, List.replicate 7 none⟩ ⟨some 5, none⟩).2 = none ∧
    (ctrlStep ⟨false, ⟨0, List.replicate 7 none⟩, false⟩ ⟨some 5, none, none⟩).1.dev.status
      = 5 ∧
    ¬ (ctrlStep ⟨false, ⟨0, List.replicate 7 none⟩, false⟩
        ⟨some 5, none, none⟩).1.dev.status = 0 := by
  decide

/-- Claim C9 (amended): every decoded Programmable PDO has non-negative
integer scaled values, and its voltage_min_mV is at most its voltage_max_mV
exactly when the raw vmin field (bits 15..8) is at most the raw vmax field
(bits 24..17) of the word; the decoder does not enforce that ordering. -/
theorem c9_programmable_invariant (w : Nat) (a : APDO)
    (h : decodePDO w = some (.Programmable a)) :
    (PDO.vmin (.Programmable a) ≤ PDO.vmax (.Programmable a) ↔
      getBits w 15 8 ≤ getBits w 24 17) ∧
    0 ≤ PDO.vmin (.Programmable a) ∧ 0 ≤ PDO.vmax (.Programmable a) ∧
    0 ≤ PDO.imax (.Programmable a) := by
  have ha : a.reg = w := by
    unfold decodePDO at h
    split at h
    · simp at h
    · split at h
      · simp only [Option.some.injEq, PDO.Programmable.injEq] at h
        rw [← h]
      · split at h <;> simp at h
  simp [PDO.vmin, PDO.vmax, APDO.vmin, APDO.vmax, ha]

theorem c9_witness :
    decodePDO 0xc0642100 = some (.Programmable ⟨0xc0642100⟩) ∧
    (PDO.vmin (.Programmable ⟨0xc0642100⟩) ≤ PDO.vmax (.Programmable ⟨0xc0642100⟩) ↔
      getBits 0xc0642100 15 8 ≤ getBits 0xc0642100 24 17) := by
  exact ⟨by decide, (c9_programmable_invariant 0xc0642100 ⟨0xc0642100⟩ (by decide)).1⟩

/-- Claim C9 counterexample: the word 0xc002ff00 decodes to a Programmable
PDO whose voltage_min_mV (25500) exceeds its voltage_max_mV (100), so the
claimed invariant does not hold of every decoded Programmable PDO. -/
theorem c9_counterexample :
    decodePDO 0xc002ff00 = some (.Programmable ⟨0xc002ff00⟩) ∧
    ¬ PDO.vmin (.Programmable ⟨0xc002ff00⟩) ≤ PDO.vmax (.Programmable ⟨0xc002ff00⟩) := by
  decide

/-- Claim C10 (amended): write_ocpthr does not panic for any threshold up to
12750 mA, writing thr / 50 as one byte to register 0x23; the one-byte
conversion only fails from 12800 mA upward, while thresholds from 12751 to
12799 mA truncate to the byte 255 and succeed. -/
theorem c10_ocpthr (thr : Nat) :
    (thr ≤ 12750 → write_ocpthr thr = some [0x23, thr / 50] ∧ thr / 50 < 256) ∧
    (12800 ≤ thr → write_ocpthr thr = none) ∧
    (12750 < thr → thr < 12800 → write_ocpthr thr = some [0x23, 255]) := by
  refine ⟨fun h => ?_, fun h => ?_, fun h1 h2 => ?_⟩ <;> unfold write_ocpthr
  · have hx : thr / 50 < 256 := by omega
    simp [hx]
  · have hx : ¬ thr / 50 < 256 := by omega
    simp [hx]
  · have hx : thr / 50 < 256 := by omega
    have hy : thr / 50 = 255 := by omega
    simp [hx, hy]

theorem c10_witness :
    (200 ≤ 12750 ∧ write_ocpthr 200 = some [0x23, 4]) ∧
    (12800 ≤ 12800 ∧ write_ocpthr 12800 = none) := by
  refine ⟨⟨by decide, ?_⟩, ⟨by decide, (c10_ocpthr 12800).2.1 (by decide)⟩⟩
  exact ((c10_ocpthr 200).1 (by decide)).1.trans (by decide)

/-- Claim C10 counterexample: 12751 mA is above 12.75 A, yet the one-byte
conversion does not fail; the write truncates to the byte 255 and succeeds. -/
theorem c10_counterexample :
    12750 < 12751 ∧ write_ocpthr 12751 = some [0x23, 255] := by decide

lemma selectAux_eq_foldl (t : Target) (l : List (Option PDO)) :
    ∀ i sel, selectAux t i sel l =
      (List.enumFrom i l).foldl (fun s p => selStep t s p.1 p.2) sel := by
  induction l with
  | nil => intro i sel; rfl
  | cons hd tl ih =>
    intro i sel
    simp only [selectAux, List.enumFrom, List.foldl]
    exact ih (i + 1) (selStep t sel i hd)

/-- Claim C2, code-bug evidence: the same-variant arms of the selection
loop compare the scaled current of the candidate slot against the raw
unscaled bitfield of the currently selected slot (pdo_old binds the inner
struct), so with two compatible fixed 5 V offers the program replaces a
selected 1500 mA slot (raw field 150) by a later 1200 mA slot because it
evaluates 1200 > 150, and with two equal 1500 mA offers the later slot wins
the tie because it evaluates 1500 > 150 - contradicting the claimed
higher-current-wins, earlier-slot-on-ties rule. -/
theorem c2_same_variant_comparison_bug :
    PDO.imax (.Fixed ⟨0x19096⟩) = 1500 ∧
    PDO.imax (.Fixed ⟨0x19078⟩) = 1200 ∧
    select mainTarget [some (.Fixed ⟨0x19096⟩), some (.Fixed ⟨0x19078⟩)] =
      some (1, .Fixed ⟨0x19078⟩) ∧
    select mainTarget [some (.Fixed ⟨0x19096⟩), some (.Fixed ⟨0x19096⟩)] =
      some (1, .Fixed ⟨0x19096⟩) := by
  decide

lemma prog_pattern_excludes_fixed (w : Nat)
    (h : w &&& 0xf0000000 = 0xc0000000) : ¬ w &&& 0xc0000000 = 0 := by
  intro h0
  have h31 : (w &&& 0xf0000000).testBit 31 = true := by rw [h]; decide
  rw [Nat.testBit_land] at h31
  have hw : w.testBit 31 = true := by
    cases hwb : w.testBit 31
    · rw [hwb] at h31; simp at h31
    · rfl
  have h31c : (w &&& 0xc0000000).testBit 31 = true := by
    rw [Nat.testBit_land, hw]; decide
  rw [h0] at h31c
  simp [Nat.zero_testBit] at h31c

lemma fixed_fields (f : FixedPDO) :
    PDO.vmax (.Fixed f) = f.reg / 2 ^ 10 % 2 ^ 10 * 50 ∧
    PDO.vmin (.Fixed f) = f.reg / 2 ^ 10 % 2 ^ 10 * 50 ∧
    PDO.imax (.Fixed f) = f.reg % 2 ^ 10 * 10 := by
  norm_num [PDO.vmax, PDO.vmin, PDO.imax, FixedPDO.v, FixedPDO.imax, getBits]

lemma apdo_fields (a : APDO) :
    PDO.vmax (.Programmable a) = a.reg / 2 ^ 17 % 2 ^ 8 * 100 ∧
    PDO.vmin (.Programmable a) = a.reg / 2 ^ 8 % 2 ^ 8 * 100 ∧
    PDO.imax (.Programmable a) = a.reg % 2 ^ 7 * 50 := by
  norm_num [PDO.vmax, PDO.vmin, PDO.imax, APDO.vmax, APDO.vmin, APDO.imax, getBits]

/-- Claim C3: a slot word decodes to an absent slot exactly when it is zero
or matches neither bit pattern, to a Programmable PDO exactly when its top
nibble is 0xC, and to a Fixed PDO exactly when it is nonzero with the top
two bits clear; the decoded fields are exactly the claimed bit ranges with
the claimed scalings. -/
theorem c3_decode_classification (w : Nat) :
    (decodePDO w = none ↔
      (w = 0 ∨ (¬ w &&& 0xf0000000 = 0xc0000000 ∧ ¬ w &&& 0xc0000000 = 0))) ∧
    ((∃ a, decodePDO w = some (.Programmable a)) ↔
      w &&& 0xf0000000 = 0xc0000000) ∧
    ((∃ f, decodePDO w = some (.Fixed f)) ↔
      (¬ w = 0 ∧ w &&& 0xc0000000 = 0)) ∧
    (∀ f, decodePDO w = some (.Fixed f) →
      PDO.vmax (.Fixed f) = w / 2 ^ 10 % 2 ^ 10 * 50 ∧
      PDO.vmin (.Fixed f) = w / 2 ^ 10 % 2 ^ 10 * 50 ∧
      PDO.imax (.Fixed f) = w % 2 ^ 10 * 10) ∧
    (∀ a, decodePDO w = some (.Programmable a) →
      PDO.vmax (.Programmable a) = w / 2 ^ 17 % 2 ^ 8 * 100 ∧
      PDO.vmin (.Programmable a) = w / 2 ^ 8 % 2 ^ 8 * 100 ∧
      PDO.imax (.Programmable a) = w % 2 ^ 7 * 50) := by
  by_cases h0 : w = 0
  · subst h0
    have hd : decodePDO 0 = none := by decide
    refine ⟨by simp [hd], ?_, ?_, ?_, ?_⟩
    · rw [hd]
      constructor
      · rintro ⟨a, ha⟩; cases ha
      · intro hc; exact absurd hc (by decide)
    · rw [hd]
      constructor
      · rintro ⟨f, hf⟩; cases hf
      · rintro ⟨hne, -⟩; exact absurd rfl hne
    · intro f hf; rw [hd] at hf; cases hf
    · intro a ha; rw [hd] at ha; cases ha
  by_cases hp : w &&& 0xf0000000 = 0xc0000000
  · have hd : decodePDO w = some (.Programmable ⟨w⟩) := by
      unfold decodePDO
      rw [if_neg h0, if_pos hp]
    have hnf : ¬ w &&& 0xc0000000 = 0 := prog_pattern_excludes_fixed w hp
    refine ⟨by simp [hd, h0, hp], ?_, ?_, ?_, ?_⟩
    · rw [hd]
      exact ⟨fun _ => hp, fun _ => ⟨⟨w⟩, rfl⟩⟩
    · rw [hd]
      constructor
      · rintro ⟨f, hf⟩; cases hf
      · rintro ⟨-, hf⟩; exact absurd hf hnf
    · intro f hf; rw [hd] at hf; cases hf
    · intro a ha
      rw [hd] at ha
      simp only [Option.some.injEq, PDO.Programmable.injEq] at ha
      subst ha
      exact apdo_fields ⟨w⟩
  by_cases hf : w &&& 0xc0000000 = 0
  · have hd : decodePDO w = some (.Fixed ⟨w⟩) := by
      unfold decodePDO
      rw [if_neg h0, if_neg hp, if_pos hf]
    refine ⟨by simp [hd, h0, hp, hf], ?_, ?_, ?_, ?_⟩
    · rw [hd]
      constructor
      · rintro ⟨a, ha⟩; cases ha
      · intro hc; exact absurd hc hp
    · rw [hd]
      exact ⟨fun _ => ⟨h0, hf⟩, fun _ => ⟨⟨w⟩, rfl⟩⟩
    · intro f hfx
      rw [hd] at hfx
      simp only [Option.some.injEq, PDO.Fixed.injEq] at hfx
      subst hfx
      exact fixed_fields ⟨w⟩
    · intro a ha; rw [hd] at ha; cases ha
  · have hd : decodePDO w = none := by
      unfold decodePDO
      rw [if_neg h0, if_neg hp, if_neg hf]
    refine ⟨by simp [hd, h0, hp, hf], ?_, ?_, ?_, ?_⟩
    · rw [hd]
      constructor
      · rintro ⟨a, ha⟩; cases ha
      · intro hc; exact absurd hc hp
    · rw [hd]
      constructor
      · rintro ⟨f, hfx⟩; cases hfx
      · rintro ⟨-, hfx⟩; exact absurd hfx hf
    · intro f hfx; rw [hd] at hfx; cases hfx
    · intro a ha; rw [hd] at ha; cases ha

theorem c3_witness :
    decodePDO 0x1912c = some (.Fixed ⟨0x1912c⟩) ∧
    PDO.vmax (.Fixed ⟨0x1912c⟩) = 0x1912c / 2 ^ 10 % 2 ^ 10 * 50 ∧
    PDO.imax (.Fixed ⟨0x1912c⟩) = 0x1912c % 2 ^ 10 * 10 := by
  have h := (c3_decode_classification 0x1912c).2.2.2.1 ⟨0x1912c⟩ (by decide)
  exact ⟨by decide, h.1, h.2.2⟩

/-- Claim C4, code-bug evidence: on the first status update since boot with
ready set and newpdos clear, the control loop refreshes the PDO table, and
the profile selector would find a compatible profile in the refreshed table,
yet the cycle performs no action at all: in particular no RDO is written,
because the re-selection after a table refresh is an unimplemented TODO in
control_fut. -/
theorem c4_first_update_no_request :
    (ctrlStep ⟨true, ⟨0, List.replicate 7 none⟩, false⟩
      ⟨some 1, none, some fixedBlock⟩).1.dev.pdos = decodeBlock fixedBlock ∧
    (select mainTarget (decodeBlock fixedBlock)).isSome = true ∧
    (ctrlStep ⟨true, ⟨0, List.replicate 7 none⟩, false⟩
      ⟨some 1, none, some fixedBlock⟩).2 = [] := by
  decide

lemma selectAux_none_of_incompatible (t : Target) (l : List (Option PDO))
    (h : ∀ p : PDO, some p ∈ l →
      (p.vcomp t.v_min t.v_max && p.icomp t.i_min) = false) :
    ∀ i, selectAux t i none l = none := by
  induction l with
  | nil => intro i; rfl
  | cons hd tl ih =>
    intro i
    have hstep : selStep t none i hd = none := by
      cases hd with
      | none => rfl
      | some p =>
        have hc := h p (by simp)
        simp [selStep, hc]
    rw [selectAux, hstep]
    exact ih (fun p hp => h p (List.mem_cons_of_mem _ hp)) (i + 1)

/-- Claim C6: a slot is compatible exactly when the target minimum voltage
is at most the offered maximum, the offered minimum voltage is at most the
target maximum, and the offered maximum current is at least the target
minimum; and when no slot of the table is compatible the selector returns no
selection and the request phase writes no RDO. -/
theorem c6_no_compatible_no_request (t : Target) (pdos : List (Option PDO)) :
    (∀ pdo : PDO, (pdo.vcomp t.v_min t.v_max && pdo.icomp t.i_min) = true ↔
      (t.v_min ≤ pdo.vmax ∧ pdo.vmin ≤ t.v_max ∧ t.i_min ≤ pdo.imax)) ∧
    ((∀ p : PDO, some p ∈ pdos →
        (p.vcomp t.v_min t.v_max && p.icomp t.i_min) = false) →
      select t pdos = none ∧ requestRDO t (select t pdos) = none) := by
  constructor
  · intro pdo
    simp [PDO.vcomp, PDO.icomp, and_assoc]
  · intro h
    have hs : select t pdos = none :=
      selectAux_none_of_incompatible t pdos h 0
    refine ⟨hs, ?_⟩
    rw [hs]
    rfl

theorem c6_witness :
    (¬ (PDO.vcomp (.Fixed ⟨0x1912c⟩) 20000 21000 &&
        PDO.icomp (.Fixed ⟨0x1912c⟩) 1000) = true ∧
      ¬ 20000 ≤ PDO.vmax (.Fixed ⟨0x1912c⟩)) ∧
    select ⟨20000, 20000, 21000, 1000, 1000⟩ [some (.Fixed ⟨0x1912c⟩)] = none ∧
    requestRDO ⟨20000, 20000, 21000, 1000, 1000⟩
      (select ⟨20000, 20000, 21000, 1000, 1000⟩ [some (.Fixed ⟨0x1912c⟩)]) = none := by
  have h := (c6_no_compatible_no_request ⟨20000, 20000, 21000, 1000, 1000⟩
    [some (.Fixed ⟨0x1912c⟩)]).2 (by intro p hp; simp at hp; subst hp; decide)
  exact ⟨⟨by decide, by decide⟩, h.1, h.2⟩

lemma fixed_word_eval (pa x : Nat) (hp : pa < 8) (hx : x < 1024) :
    getBits (x + x * 1024 + pa * 268435456) 30 28 = pa ∧
    getBits (x + x * 1024 + pa * 268435456) 19 10 = x ∧
    getBits (x + x * 1024 + pa * 268435456) 9 0 = x := by
  unfold getBits
  norm_num
  refine ⟨?_, ?_, ?_⟩
  · rw [Nat.add_mul_div_right _ _ (by norm_num : (0:Nat) < 268435456),
      Nat.div_eq_of_lt (by omega : x + x * 1024 < 268435456), Nat.zero_add,
      Nat.mod_eq_of_lt hp]
  · rw [show x + x * 1024 + pa * 268435456 = x + (x + pa * 262144) * 1024 from by
      ring]
    rw [Nat.add_mul_div_right _ _ (by norm_num : (0:Nat) < 1024),
      Nat.div_eq_of_lt hx, Nat.zero_add,
      show x + pa * 262144 = x + pa * 256 * 1024 from by ring,
      Nat.add_mul_mod_self_right, Nat.mod_eq_of_lt hx]
  · rw [show x + x * 1024 + pa * 268435456 = x + (x + pa * 262144) * 1024 from by
      ring]
    rw [Nat.add_mul_mod_self_right, Nat.mod_eq_of_lt hx]

lemma ardo_word_eval (pa v c : Nat) (hp : pa < 8) (hv : v < 2048)
    (hc : c < 128) :
    getBits (c + v * 512 + pa * 268435456) 30 28 = pa ∧
    getBits (c + v * 512 + pa * 268435456) 19 9 = v ∧
    getBits (c + v * 512 + pa * 268435456) 6 0 = c := by
  unfold getBits
  norm_num
  refine ⟨?_, ?_, ?_⟩
  · rw [Nat.add_mul_div_right _ _ (by norm_num : (0:Nat) < 268435456),
      Nat.div_eq_of_lt (by omega : c + v * 512 < 268435456), Nat.zero_add,
      Nat.mod_eq_of_lt hp]
  · rw [show c + v * 512 + pa * 268435456 = c + (v + pa * 524288) * 512 from by
      ring]
    rw [Nat.add_mul_div_right _ _ (by norm_num : (0:Nat) < 512),
      Nat.div_eq_of_lt (by omega : c < 512), Nat.zero_add,
      show v + pa * 524288 = v + pa * 256 * 2048 from by ring,
      Nat.add_mul_mod_self_right, Nat.mod_eq_of_lt hv]
  · rw [show c + v * 512 + pa * 268435456 = c + (v * 4 + pa * 2097152) * 128 from by
      ring]
    rw [Nat.add_mul_mod_self_right, Nat.mod_eq_of_lt hc]

/-- Claim C7 (amended): the constructed RDO word encodes the position
ipdo+1 at bits 30..28; for a Fixed selection the requested current
min(i_nom, offered maximum) divided by 10 lands identically in bits 19..10
and bits 9..0 (it always fits the 10-bit fields); for a Programmable
selection the target nominal voltage clamped to the target envelope divided
by 20 lands in bits 19..9 provided it fits the 11-bit field (voltages whose
twentieth reaches 2048 are truncated by the setter), and the requested
current divided by 50 lands in bits 6..0 (it always fits). -/
theorem c7_rdo_encoding (t : Target) (i : Nat) (hi : i < 7) :
    (∀ fpdo : FixedPDO,
      getBits (buildFixedRDO t i fpdo) 30 28 = i + 1 ∧
      getBits (buildFixedRDO t i fpdo) 19 10 =
        min t.i_nom (PDO.imax (.Fixed fpdo)) / 10 ∧
      getBits (buildFixedRDO t i fpdo) 9 0 =
        min t.i_nom (PDO.imax (.Fixed fpdo)) / 10) ∧
    (∀ apdo : APDO, max (min t.v_nom t.v_max) t.v_min / 20 < 2048 →
      getBits (buildARDO t i apdo) 30 28 = i + 1 ∧
      getBits (buildARDO t i apdo) 19 9 =
        max (min t.v_nom t.v_max) t.v_min / 20 ∧
      getBits (buildARDO t i apdo) 6 0 =
        min t.i_nom (PDO.imax (.Programmable apdo)) / 50) := by
  constructor
  · intro fpdo
    have himax : FixedPDO.imax fpdo < 1024 := by
      norm_num [FixedPDO.imax, getBits]
      omega
    have ha : min t.i_nom (FixedPDO.imax fpdo * 10) / 10 < 1024 := by
      have hm := min_le_right t.i_nom (FixedPDO.imax fpdo * 10)
      omega
    simp only [buildFixedRDO, PDO.imax]
    generalize hg : min t.i_nom (FixedPDO.imax fpdo * 10) / 10 = a at ha ⊢
    have h1 : setBits 0 30 28 (i + 1) = (i + 1) * 268435456 := by
      norm_num [setBits]
      omega
    have h2 : setBits ((i + 1) * 268435456) 19 10 a =
        a % 1024 * 1024 + (i + 1) * 268435456 := by
      norm_num [setBits]
      omega
    have h3 : setBits (a % 1024 * 1024 + (i + 1) * 268435456) 9 0 a =
        a % 1024 + a % 1024 * 1024 + (i + 1) * 268435456 := by
      norm_num [setBits]
      omega
    rw [h1, h2, h3, Nat.mod_eq_of_lt ha]
    exact fixed_word_eval (i + 1) a (by omega) ha
  · intro apdo hv
    have himax : APDO.imax apdo < 128 := by
      norm_num [APDO.imax, getBits]
      omega
    have ha : min t.i_nom (APDO.imax apdo * 50) / 50 < 128 := by
      have hm := min_le_right t.i_nom (APDO.imax apdo * 50)
      omega
    simp only [buildARDO, PDO.imax]
    generalize hg : min t.i_nom (APDO.imax apdo * 50) / 50 = a at ha ⊢
    generalize hg2 : max (min t.v_nom t.v_max) t.v_min / 20 = b at hv ⊢
    have h1 : setBits 0 30 28 (i + 1) = (i + 1) * 268435456 := by
      norm_num [setBits]
      omega
    have h2 : setBits ((i + 1) * 268435456) 19 9 b =
        b % 2048 * 512 + (i + 1) * 268435456 := by
      norm_num [setBits]
      omega
    have h3 : setBits (b % 2048 * 512 + (i + 1) * 268435456) 6 0 a =
        a % 128 + b % 2048 * 512 + (i + 1) * 268435456 := by
      norm_num [setBits]
      omega
    rw [h1, h2, h3, Nat.mod_eq_of_lt ha, Nat.mod_eq_of_lt hv]
    exact ardo_word_eval (i + 1) b a (by omega) hv ha

theorem c7_witness :
    2 < 7 ∧
    getBits (buildFixedRDO ⟨5000, 3300, 5000, 1500, 1000⟩ 2 ⟨0x1912c⟩) 30 28 = 3 ∧
    getBits (buildFixedRDO ⟨5000, 3300, 5000, 1500, 1000⟩ 2 ⟨0x1912c⟩) 19 10 = 150 ∧
    getBits (buildFixedRDO ⟨5000, 3300, 5000, 1500, 1000⟩ 2 ⟨0x1912c⟩) 9 0 = 150 ∧
    max (min 5000 5000) 3300 / 20 < 2048 ∧
    getBits (buildARDO ⟨5000, 3300, 5000, 1500, 1000⟩ 2 ⟨0xc0642100⟩) 19 9 = 250 := by
  have h := c7_rdo_encoding ⟨5000, 3300, 5000, 1500, 1000⟩ 2 (by decide)
  have hf := h.1 ⟨0x1912c⟩
  have ha := h.2 ⟨0xc0642100⟩ (by decide)
  exact ⟨by decide, hf.1, hf.2.1.trans (by decide), hf.2.2.trans (by decide),
    by decide, ha.2.1.trans (by decide)⟩

/-- Claim C7 counterexample: with a target whose clamped nominal voltage is
50000 mV, the programmable RDO field at bits 19..9 holds 452, not the
claimed 50000 / 20 = 2500: the setter truncates to the 11-bit field, so the
construction does not encode the claimed value exactly for every target. -/
theorem c7_counterexample :
    getBits (buildARDO ⟨50000, 50000, 50000, 1000, 1000⟩ 0 ⟨0xc0000000⟩) 19 9 = 452 ∧
    ¬ getBits (buildARDO ⟨50000, 50000, 50000, 1000, 1000⟩ 0 ⟨0xc0000000⟩) 19 9 =
      max (min 50000 50000) 50000 / 20 := by
  decide
